import Mathlib

/-!
# Verification of the Smart-Bookmark-App client state logic

Shallow embedding of `src/src/components/BookmarkApp.tsx`: the in-memory
bookmark list held by the React component, the realtime
`postgres_changes` handler, `handleAdd`, `handleDelete`, and the
`filteredBookmarks` search filter, together with proofs about them.

Asynchrony is embedded by making each operation a function of its inputs
and of the outcome of the (external) Supabase gateway call; the
observable intermediate list states (the value passed to `setBookmarks`
before an `await` resolves) are recorded explicitly in the outcome
structures.
-/

/-- The `Bookmark` record type of `BookmarkApp.tsx`. -/
structure Bookmark where
  id : String
  title : String
  url : String
  created_at : String
deriving DecidableEq, Repr

/-- The payload of `supabase.from('bookmarks').insert({...})` in `handleAdd`. -/
structure InsertPayload where
  title : String
  url : String
  user_id : String
deriving DecidableEq, Repr

/-- Outcome of an awaited Supabase gateway call (`error` null or not). -/
inductive GatewayResult where
  | success
  | failure
deriving DecidableEq, Repr

/-- INSERT branch of the realtime `postgres_changes` handler:
`setBookmarks(prev => [payload.new as Bookmark, ...prev])`. -/
def realtimeInsert (row : Bookmark) (prev : List Bookmark) : List Bookmark :=
  row :: prev

/-- DELETE branch of the realtime `postgres_changes` handler:
`setBookmarks(prev => prev.filter(b => b.id !== payload.old.id))`. -/
def realtimeDelete (oldId : String) (prev : List Bookmark) : List Bookmark :=
  prev.filter (fun b => b.id ≠ oldId)

/-- A realtime notification event, as dispatched on `payload.eventType`. -/
inductive RealtimeEvent where
  | insert (row : Bookmark)
  | delete (oldId : String)
deriving DecidableEq, Repr

/-- The realtime `postgres_changes` callback of `BookmarkApp`. -/
def handleRealtime (prev : List Bookmark) (e : RealtimeEvent) : List Bookmark :=
  match e with
  | .insert row => realtimeInsert row prev
  | .delete oldId => realtimeDelete oldId prev

/-- `s.trim()`: strip whitespace from both ends, at the character-list level. -/
def jsTrim (s : String) : String :=
  ⟨((s.data.dropWhile Char.isWhitespace).reverse.dropWhile Char.isWhitespace).reverse⟩

/-- `s.startsWith(pat)`, at the character-list level. -/
def jsStartsWith (s pat : String) : Bool :=
  pat.data.isPrefixOf s.data

/-- URL normalization in `handleAdd`:
`const fullUrl = url.startsWith('http') ? url : https://${url}`. -/
def fullUrl (url : String) : String :=
  if jsStartsWith url "http" then url else "https://" ++ url

/-- The observable effects of one `handleAdd` run. `handleAdd` never calls
`setBookmarks`, so both recorded list states come from the same `bookmarks`
value; they are recorded separately so that theorems can speak about the
window between issuing the insert and its resolution. -/
structure AddOutcome where
  /-- the payload of the gateway insert call, `none` when the validation
  guard returned before any network call -/
  gatewayCall : Option InsertPayload
  /-- the in-memory list at the moment the gateway call is issued -/
  listAtGatewayCall : List Bookmark
  /-- the in-memory list after `handleAdd` finishes -/
  finalList : List Bookmark
  /-- whether `toast.success('Bookmark added!')` fired -/
  successToast : Bool
  /-- whether any failure notification fired (no such call exists in `handleAdd`) -/
  failureToast : Bool
deriving DecidableEq, Repr

/-- `handleAdd` of `BookmarkApp.tsx`, as a function of the component state
(`bookmarks`, `title`, `url`, `user.id`) and of the gateway insert outcome.
The guard is `if (!title.trim() || !url.trim()) return`; the insert result
is never destructured, and `toast.success` runs unconditionally after the
`await`. -/
def handleAdd (bookmarks : List Bookmark) (title url userId : String)
    (result : GatewayResult) : AddOutcome :=
  if jsTrim title = "" ∨ jsTrim url = "" then
    { gatewayCall := none
      listAtGatewayCall := bookmarks
      finalList := bookmarks
      successToast := false
      failureToast := false }
  else
    match result with
    | _ =>
      { gatewayCall := some { title := jsTrim title, url := fullUrl url, user_id := userId }
        listAtGatewayCall := bookmarks
        finalList := bookmarks
        successToast := true
        failureToast := false }

/-- The observable effects of one `handleDelete` run. -/
structure DeleteOutcome where
  /-- whether the gateway delete call was issued -/
  gatewayCall : Bool
  /-- the in-memory list right after the synchronous optimistic
  `setBookmarks(prev => prev.filter(...))`, before the `await` resolves -/
  listAfterOptimistic : List Bookmark
  /-- the in-memory list after `handleDelete` finishes -/
  finalList : List Bookmark
deriving DecidableEq, Repr

/-- `handleDelete` of `BookmarkApp.tsx`, as a function of the component
state, the `confirm(...)` answer, the gateway delete outcome, and the rows
the rollback reload (`select * order by created_at desc`) would return
(`data ?? []` is embedded as `Option.getD`). -/
def handleDelete (bookmarks : List Bookmark) (id : String) (confirmed : Bool)
    (result : GatewayResult) (reloadRows : Option (List Bookmark)) : DeleteOutcome :=
  if confirmed = false then
    { gatewayCall := false
      listAfterOptimistic := bookmarks
      finalList := bookmarks }
  else
    let optimistic := bookmarks.filter (fun b => b.id ≠ id)
    match result with
    | .success =>
      { gatewayCall := true
        listAfterOptimistic := optimistic
        finalList := optimistic }
    | .failure =>
      { gatewayCall := true
        listAfterOptimistic := optimistic
        finalList := reloadRows.getD [] }

/-- `s.toLowerCase()`. -/
def jsToLower (s : String) : String :=
  ⟨s.data.map Char.toLower⟩

/-- `s.includes(pat)`: `pat` occurs as a contiguous substring of `s`. -/
def jsIncludes (s pat : String) : Bool :=
  decide (pat.data <:+: s.data)

/-- `filteredBookmarks` of `BookmarkApp.tsx`:
`bookmarks.filter(bm => bm.title.toLowerCase().includes(search.toLowerCase()) ||
bm.url.toLowerCase().includes(search.toLowerCase()))`. -/
def filteredBookmarks (bookmarks : List Bookmark) (search : String) : List Bookmark :=
  bookmarks.filter (fun bm =>
    jsIncludes (jsToLower bm.title) (jsToLower search) ||
    jsIncludes (jsToLower bm.url) (jsToLower search))

/-- One Store-level event: each constructor names a `setBookmarks` call
site of `BookmarkApp.tsx` (or, for `localAdd`, the absence of one). -/
inductive StoreEvent where
  | localAdd (title url : String)
  | localDelete (id : String)
  | reload (rows : List Bookmark)
  | remote (e : RealtimeEvent)
deriving Repr

/-- The effect of one Store event on the in-memory list: `localAdd` leaves
the list untouched (`handleAdd` contains no `setBookmarks` call),
`localDelete` is the optimistic filter of `handleDelete`, `reload` is
`setBookmarks(data ?? [])`, `remote` is the realtime handler. -/
def stepStore (l : List Bookmark) : StoreEvent → List Bookmark
  | .localAdd _ _ => l
  | .localDelete id => l.filter (fun b => b.id ≠ id)
  | .reload rows => rows
  | .remote e => handleRealtime l e

/-- The list holds no two entries with the same `id`. -/
abbrev noDupIds (l : List Bookmark) : Prop :=
  (l.map Bookmark.id).Nodup

/-- Concrete sample bookmarks used by closed theorems. -/
def bA : Bookmark := { id := "7", title := "A", url := "https://a.com", created_at := "t1" }

def bX : Bookmark := { id := "1", title := "X", url := "https://x.com", created_at := "t2" }

def bY : Bookmark := { id := "2", title := "Y", url := "https://y.com", created_at := "t1" }

def bGitHub : Bookmark := { id := "3", title := "GitHub", url := "https://github.com", created_at := "t3" }

def bDocs : Bookmark := { id := "4", title := "Docs", url := "https://docs.example", created_at := "t4" }

/-- Helper: a character list is a prefix of itself followed by anything. -/
theorem isPrefixOf_append_self (l t : List Char) : l.isPrefixOf (l ++ t) = true := by
  induction l with
  | nil => simp [List.isPrefixOf]
  | cons a as ih => simp [List.isPrefixOf, ih]

/-- C1, counterexample: from the empty list, delivering the same remote
insert twice produces two entries with the same authoritative `id`, and the
second insert (whose row id already occurs) does not leave the list
unchanged. -/
theorem C1_insert_dedup_refuted :
    stepStore (stepStore [] (.remote (.insert bA))) (.remote (.insert bA)) ≠
      stepStore [] (.remote (.insert bA)) ∧
    ¬ noDupIds (stepStore (stepStore [] (.remote (.insert bA))) (.remote (.insert bA))) := by
  decide

/-- C1, amended: a Store step (local add, optimistic local delete, reload,
or remote notification) preserves uniqueness of `id`s provided every remote
insert carries an id not already in the list and every reload returns rows
with unique ids; the unconditional prepend in the INSERT branch breaks the
invariant exactly when the inserted row id already occurs. -/
theorem C1_step_preserves_unique_ids (l : List Bookmark) (e : StoreEvent)
    (hl : noDupIds l)
    (hins : ∀ row, e = .remote (.insert row) → row.id ∉ l.map Bookmark.id)
    (hreload : ∀ rows, e = .reload rows → noDupIds rows) :
    noDupIds (stepStore l e) := by
  cases e with
  | localAdd t u => exact hl
  | localDelete id =>
      exact List.Nodup.sublist (List.Sublist.map _ (List.filter_sublist l)) hl
  | reload rows => exact hreload rows rfl
  | remote ev =>
      cases ev with
      | insert row =>
          simp only [stepStore, handleRealtime, realtimeInsert, noDupIds, List.map_cons,
            List.nodup_cons]
          exact ⟨hins row rfl, hl⟩
      | delete oldId =>
          exact List.Nodup.sublist (List.Sublist.map _ (List.filter_sublist l)) hl

/-- Witness for `C1_step_preserves_unique_ids` at a concrete fresh insert. -/
theorem C1_step_preserves_unique_ids_witness :
    noDupIds [bA] ∧ noDupIds (stepStore [bA] (.remote (.insert bX))) :=
  ⟨by decide,
   C1_step_preserves_unique_ids [bA] (.remote (.insert bX)) (by decide)
     (fun row h => by
       injection h with h1
       injection h1 with h2
       exact h2 ▸ (by decide : bX.id ∉ [bA].map Bookmark.id))
     (fun rows h => StoreEvent.noConfusion h)⟩

/-- C2, counterexample: delivering the same insert notification twice does
not yield the same list as delivering it once. -/
theorem C2_insert_idempotence_refuted :
    handleRealtime (handleRealtime [] (.insert bA)) (.insert bA) ≠
      handleRealtime [] (.insert bA) := by
  decide

/-- C2, amended: the INSERT branch is not idempotent — delivering the same
insert notification twice prepends the row twice, leaving the list one
entry longer than delivering it once. -/
theorem C2_double_insert_prepends_twice (l : List Bookmark) (row : Bookmark) :
    handleRealtime (handleRealtime l (.insert row)) (.insert row) = row :: row :: l ∧
    (handleRealtime (handleRealtime l (.insert row)) (.insert row)).length =
      (handleRealtime l (.insert row)).length + 1 := by
  constructor <;> simp [handleRealtime, realtimeInsert]

/-- C3: `handleAdd` never inspects the gateway result — its outcome on
failure equals its outcome on success — and at the failing input
`add("A", "https://a.com")` with the insert erroring it still fires the
success toast and no failure notification. -/
theorem C3_insert_failure_reports_success :
    (∀ (l : List Bookmark) (t u uid : String),
      handleAdd l t u uid .failure = handleAdd l t u uid .success) ∧
    (handleAdd [] "A" "https://a.com" "u" .failure).successToast = true ∧
    (handleAdd [] "A" "https://a.com" "u" .failure).failureToast = false :=
  ⟨fun l t u uid => by unfold handleAdd; split <;> rfl, by decide, by decide⟩

/-- C4, counterexample: `handleAdd` issues the gateway insert while the
in-memory list is still empty — no pending entry with a temporary
identifier is ever present during the window. -/
theorem C4_pending_entry_refuted :
    (handleAdd [] "A" "https://a.com" "u" .success).gatewayCall.isSome = true ∧
    (handleAdd [] "A" "https://a.com" "u" .success).listAtGatewayCall = [] := by
  decide

/-- C4, amended: `delete` applies its optimistic removal synchronously
before the gateway call resolves, but `add` applies no optimistic update at
all — the list is untouched by `handleAdd` both at call time and at the
end; the new entry only ever arrives via the remote insert notification. -/
theorem C4_optimistic_delete_only (l : List Bookmark) (title url uid id : String)
    (res : GatewayResult) (reload : Option (List Bookmark)) :
    (handleAdd l title url uid res).listAtGatewayCall = l ∧
    (handleAdd l title url uid res).finalList = l ∧
    (handleDelete l id true res reload).listAfterOptimistic =
      l.filter (fun b => b.id ≠ id) := by
  refine ⟨?_, ?_, ?_⟩
  · unfold handleAdd; split <;> rfl
  · unfold handleAdd; split <;> rfl
  · cases res <;> simp [handleDelete]

/-- C5: a confirmed `delete(id)` filters the entry out of the list before
the gateway call resolves; on gateway failure the final list is exactly the
rows the rollback reload returned (so with the gateway unchanged, the
previous list is restored verbatim); on gateway success nothing further
changes. -/
theorem C5_delete_optimistic_rollback (l : List Bookmark) (id : String)
    (res : GatewayResult) (reload : Option (List Bookmark)) :
    (handleDelete l id true res reload).listAfterOptimistic =
      l.filter (fun b => b.id ≠ id) ∧
    (∀ b ∈ (handleDelete l id true res reload).listAfterOptimistic, b.id ≠ id) ∧
    (res = .failure → ∀ rows, reload = some rows →
      (handleDelete l id true res reload).finalList = rows) ∧
    (res = .success →
      (handleDelete l id true res reload).finalList =
        (handleDelete l id true res reload).listAfterOptimistic) := by
  refine ⟨?_, ?_, ?_, ?_⟩
  · cases res <;> simp [handleDelete]
  · intro b hb
    cases res <;>
      (simp only [handleDelete, if_neg, Bool.true_eq_false, not_false_eq_true,
        List.mem_filter, decide_eq_true_eq, ite_false] at hb
       exact hb.2)
  · rintro rfl rows rfl
    simp [handleDelete]
  · rintro rfl
    simp [handleDelete]

/-- Witness for `C5_delete_optimistic_rollback`: the spec §8 scenario —
list `[X, Y]`, `delete(X.id)` with gateway failure and an unchanged
gateway restores `[X, Y]`. -/
theorem C5_delete_optimistic_rollback_witness :
    GatewayResult.failure = GatewayResult.failure ∧
    (handleDelete [bX, bY] "1" true .failure (some [bX, bY])).finalList = [bX, bY] :=
  ⟨rfl, (C5_delete_optimistic_rollback [bX, bY] "1" .failure (some [bX, bY])).2.2.1 rfl
    [bX, bY] rfl⟩

/-- C6: with both inputs non-empty after trimming, `handleAdd` issues the
insert with the trimmed title and the normalized url, and whenever the
supplied url does not start with `http` the persisted url is
`https://` prepended to it, hence starts with the default secure scheme. -/
theorem C6_add_normalizes (l : List Bookmark) (title url uid : String)
    (res : GatewayResult)
    (ht : jsTrim title ≠ "") (hu : jsTrim url ≠ "") :
    (handleAdd l title url uid res).gatewayCall =
      some { title := jsTrim title, url := fullUrl url, user_id := uid } ∧
    (jsStartsWith url "http" = false →
      fullUrl url = "https://" ++ url ∧
      jsStartsWith (fullUrl url) "https://" = true) := by
  constructor
  · unfold handleAdd
    rw [if_neg (by simp [ht, hu])]
  · intro h
    have hfull : fullUrl url = "https://" ++ url := by
      unfold fullUrl
      rw [h]
      rfl
    refine ⟨hfull, ?_⟩
    rw [hfull]
    unfold jsStartsWith
    rw [String.data_append]
    exact isPrefixOf_append_self _ _

/-- Witness for `C6_add_normalizes`: the spec §8 round trip
`add("Docs", "example.com")`. -/
theorem C6_add_normalizes_witness :
    jsTrim "Docs" ≠ "" ∧ jsTrim "example.com" ≠ "" ∧
    (handleAdd [] "Docs" "example.com" "u" .success).gatewayCall =
      some { title := "Docs", url := "https://example.com", user_id := "u" } ∧
    jsStartsWith (fullUrl "example.com") "https://" = true := by
  have h := C6_add_normalizes [] "Docs" "example.com" "u" .success (by decide) (by decide)
  refine ⟨by decide, by decide, ?_, (h.2 (by decide)).2⟩
  rw [h.1]
  decide

/-- C7: when title or url trims to empty, `handleAdd` issues no gateway
call, leaves the list unchanged, and fires no success toast. -/
theorem C7_add_validation_noop (l : List Bookmark) (title url uid : String)
    (res : GatewayResult) (h : jsTrim title = "" ∨ jsTrim url = "") :
    (handleAdd l title url uid res).gatewayCall = none ∧
    (handleAdd l title url uid res).finalList = l ∧
    (handleAdd l title url uid res).successToast = false := by
  unfold handleAdd
  rw [if_pos h]
  exact ⟨rfl, rfl, rfl⟩

/-- Witness for `C7_add_validation_noop`: the spec §8 boundary cases
`add("", "https://a.com")` and `add("A", "")`. -/
theorem C7_add_validation_noop_witness :
    (jsTrim "" = "" ∨ jsTrim "https://a.com" = "") ∧
    (handleAdd [bA] "" "https://a.com" "u" .success).gatewayCall = none ∧
    (handleAdd [bA] "A" "" "u" .success).finalList = [bA] :=
  ⟨Or.inl (by decide),
   (C7_add_validation_noop [bA] "" "https://a.com" "u" .success (Or.inl (by decide))).1,
   (C7_add_validation_noop [bA] "A" "" "u" .success (Or.inr (by decide))).2.1⟩

/-- C8: the realtime DELETE branch is a no-op when the id is absent, is
idempotent under re-delivery, and leaves no entry with the matching id. -/
theorem C8_remote_delete_idempotent (l : List Bookmark) (id : String) :
    (id ∉ l.map Bookmark.id → handleRealtime l (.delete id) = l) ∧
    handleRealtime (handleRealtime l (.delete id)) (.delete id) =
      handleRealtime l (.delete id) ∧
    ∀ b ∈ handleRealtime l (.delete id), b.id ≠ id := by
  refine ⟨?_, ?_, ?_⟩
  · intro h
    simp only [handleRealtime, realtimeDelete]
    apply List.filter_eq_self.mpr
    intro b hb
    simp only [decide_eq_true_eq]
    exact fun he => h (he ▸ List.mem_map_of_mem Bookmark.id hb)
  · simp [handleRealtime, realtimeDelete, List.filter_filter]
  · intro b hb
    simp only [handleRealtime, realtimeDelete, List.mem_filter, decide_eq_true_eq] at hb
    exact hb.2

/-- Witness for `C8_remote_delete_idempotent`: a delete notification for
the absent id `"9"` leaves `[bA]` unchanged. -/
theorem C8_remote_delete_idempotent_witness :
    ("9" ∉ [bA].map Bookmark.id) ∧ handleRealtime [bA] (.delete "9") = [bA] :=
  ⟨by decide, (C8_remote_delete_idempotent [bA] "9").1 (by decide)⟩

/-- C9: `filteredBookmarks` keeps exactly the entries whose lowercased
title or url contains the lowercased query as a contiguous substring, is a
sublist of the input (order preserved, underlying list untouched), the
empty query keeps everything, and the §8 scenario holds. -/
theorem C9_search_filter (l : List Bookmark) (q : String) :
    (∀ b, b ∈ filteredBookmarks l q ↔
      b ∈ l ∧ ((jsToLower q).data <:+: (jsToLower b.title).data ∨
               (jsToLower q).data <:+: (jsToLower b.url).data)) ∧
    List.Sublist (filteredBookmarks l q) l ∧
    filteredBookmarks l "" = l ∧
    filteredBookmarks [bGitHub, bDocs] "git" = [bGitHub] := by
  refine ⟨?_, List.filter_sublist l, ?_, by decide⟩
  · intro b
    simp [filteredBookmarks, List.mem_filter, jsIncludes]
  · apply List.filter_eq_self.mpr
    intro b hb
    have hq : (jsToLower "").data = [] := rfl
    simp [jsIncludes, hq]

/-- Witness for `C9_search_filter`: membership of `bGitHub` in the
`search("git")` result, via the characterization. -/
theorem C9_search_filter_witness :
    bGitHub ∈ [bGitHub, bDocs] ∧
    bGitHub ∈ filteredBookmarks [bGitHub, bDocs] "git" :=
  ⟨by decide,
   ((C9_search_filter [bGitHub, bDocs] "git").1 bGitHub).mpr
     ⟨by decide, Or.inl (by decide)⟩⟩

/-- C10: the optimistic removal of a confirmed `handleDelete` and the
realtime DELETE branch are the same filter: the result holds no entry with
the given id (duplicates included), keeps every entry with a different id,
and is a sublist of the input, so surviving entries stay in their original
relative order. -/
theorem C10_delete_frame (l : List Bookmark) (id : String) :
    (∀ res reload,
      (handleDelete l id true res reload).listAfterOptimistic =
        handleRealtime l (.delete id)) ∧
    (∀ b ∈ handleRealtime l (.delete id), b.id ≠ id) ∧
    (∀ b ∈ l, b.id ≠ id → b ∈ handleRealtime l (.delete id)) ∧
    List.Sublist (handleRealtime l (.delete id)) l := by
  refine ⟨?_, ?_, ?_, List.filter_sublist l⟩
  · intro res reload
    cases res <;> simp [handleDelete, handleRealtime, realtimeDelete]
  · intro b hb
    simp only [handleRealtime, realtimeDelete, List.mem_filter, decide_eq_true_eq] at hb
    exact hb.2
  · intro b hb hne
    simp only [handleRealtime, realtimeDelete, List.mem_filter, decide_eq_true_eq]
    exact ⟨hb, hne⟩

/-- Witness for `C10_delete_frame`: deleting id `"1"` from `[bX, bY]`
keeps `bY`. -/
theorem C10_delete_frame_witness :
    bY ∈ [bX, bY] ∧ bY.id ≠ "1" ∧ bY ∈ handleRealtime [bX, bY] (.delete "1") :=
  ⟨by decide, by decide,
   (C10_delete_frame [bX, bY] "1").2.2.1 bY (by decide) (by decide)⟩
